import Mathlib

/-!
Shallow embedding of the Kademlia protocol core of OpenBazaar-Server
(src/dht/protocol.py).  The routing table, storage engine, node identity,
digest, peer-descriptor codec and signature primitive are external
collaborators (spec sections 3 and 6); they are modelled from the spec,
while every handler below is translated line by line from the source.
-/

/-- Byte strings are lists of byte values. -/
abbrev Bytes := List Nat

/-- Modelled from the spec: dht/node.py is not in src; an identifier's bytes
are read big-endian into a natural number (spec section 3). -/
def bytesToNat (b : Bytes) : Nat :=
  b.foldl (fun acc x => acc * 256 + x % 256) 0

/-- Modelled from the spec: distance between two identifiers is bitwise XOR
interpreted as an unsigned integer (spec section 3). -/
def distance (a b : Bytes) : Nat :=
  Nat.xor (bytesToNat a) (bytesToNat b)

/-- Peer descriptor: node id, address and signed public key blob
(spec section 3). -/
structure Peer where
  nid : Bytes
  ip : String
  port : Nat
  signed_pubkey : Bytes
deriving DecidableEq, Repr

/-- Parsed protobuf Node message: rpc_delete reads only the signedPublicKey
field of protos.objects.Node (not in src). -/
structure NodeMsg where
  signedPublicKey : Bytes
deriving DecidableEq, Repr

/-- Modelled from the spec (section 6): the external collaborators of the
protocol core as oracles.  digest is dht.utils.digest; serialize is
getProto().SerializeToString(); parseNode is objects.Node.ParseFromString,
returning none when parsing raises; keyOk tells whether
nacl.signing.VerifyKey construction succeeds on the given key bytes;
verifyDetached vk msg sig is verify_key.verify(msg, sig) succeeding;
verifyCombined vk smsg is verify_key.verify(smsg) succeeding. -/
structure Oracles where
  digest : Bytes → Bytes
  serialize : Peer → Bytes
  parseNode : Bytes → Option NodeMsg
  keyOk : Bytes → Bool
  verifyDetached : Bytes → Bytes → Bytes → Bool
  verifyCombined : Bytes → Bytes → Bool

/-- Modelled from the spec: the external Storage collaborator (spec section
6), a keyword-indexed multimap of (key, value) pairs kept in insertion
order. -/
abbrev Storage := List (Bytes × Bytes × Bytes)

/-- Modelled from the spec: getSpecific(keyword, key) returns the stored
value or none. -/
def Storage.getSpecific (s : Storage) (keyword key : Bytes) : Option Bytes :=
  (s.find? fun r => decide (r.1 = keyword ∧ r.2.1 = key)).map fun r => r.2.2

/-- Modelled from the spec: get(keyword, default) returns the list of
(key, value) pairs under keyword, or the default (none) when there are
none. -/
def Storage.get (s : Storage) (keyword : Bytes) : Option (List (Bytes × Bytes)) :=
  match s.filter fun r => decide (r.1 = keyword) with
  | [] => none
  | l => some (l.map fun r => (r.2.1, r.2.2))

/-- Modelled from the spec: upsert of (key, value) under keyword,
last-write-wins per (keyword, key). -/
def Storage.setItem (s : Storage) (keyword key value : Bytes) : Storage :=
  (s.filter fun r => !decide (r.1 = keyword ∧ r.2.1 = key)) ++ [(keyword, key, value)]

/-- Modelled from the spec: delete(keyword, key) removes the record. -/
def Storage.delete (s : Storage) (keyword key : Bytes) : Storage :=
  s.filter fun r => !decide (r.1 = keyword ∧ r.2.1 = key)

/-- Modelled from the spec: iteration over the (key, value) pairs stored
under one keyword. -/
def Storage.iteritems (s : Storage) (keyword : Bytes) : List (Bytes × Bytes) :=
  (s.filter fun r => decide (r.1 = keyword)).map fun r => (r.2.1, r.2.2)

/-- Modelled from the spec: iteration over the stored keywords, each once. -/
def Storage.iterkeys (s : Storage) : List Bytes :=
  (s.map fun r => r.1).dedup

/-- Modelled from the spec: the routing table contract (spec section 6),
as the list of known peers; identity is by node id. -/
abbrev Router := List Peer

/-- Membership of a peer in the routing table, by node id. -/
def Router.hasContact (r : Router) (p : Peer) : Bool :=
  r.any fun q => decide (q.nid = p.nid)

/-- Modelled from the spec: isNewNode(peer) is true when the table does not
already know the peer. -/
def Router.isNewNode (r : Router) (p : Peer) : Bool :=
  !(r.hasContact p)

/-- Modelled from the spec: addContact(peer) records the peer; re-adding a
known peer refreshes it, leaving membership unchanged. -/
def Router.addContact (r : Router) (p : Peer) : Router :=
  if r.hasContact p then r else r ++ [p]

/-- Modelled from the spec: removeContact(peer) evicts the peer. -/
def Router.removeContact (r : Router) (p : Peer) : Router :=
  r.filter fun q => !decide (q.nid = p.nid)

/-- Modelled from the spec: findNeighbors(target, exclude) returns up to k
known peers ordered by ascending XOR distance to the target, excluding the
given peer. -/
def Router.findNeighbors (r : Router) (ksize : Nat) (target : Bytes) (exclude : Peer) :
    List Peer :=
  (List.insertionSort (fun a b => distance a.nid target ≤ distance b.nid target)
    (r.filter fun q => !decide (q.nid = exclude.nid))).take ksize

/-- One item of a reply list: handlers reply with strings or byte blobs. -/
inductive RItem where
  | s (v : String)
  | b (v : Bytes)
deriving DecidableEq, Repr

/-- Reply of a handler: a flat list of items (spec section 6). -/
abbrev Reply := List RItem

/-- Outbound STORE call issued by the replication protocol (callStore). -/
structure StoreCall where
  target : Peer
  keyword : Bytes
  key : Bytes
  value : Bytes
deriving DecidableEq, Repr

/-- Observable side effects of a handler, recorded in order: an addToRouter
invocation, a transferKeyValues run, an outbound STORE call. -/
inductive Event where
  | addEv (p : Peer)
  | transferEv (p : Peer)
  | storeEv (c : StoreCall)
deriving DecidableEq, Repr

/-- State of the protocol core: k, our own node, routing table, storage. -/
structure ProtoState where
  ksize : Nat
  sourceNode : Peer
  router : Router
  storage : Storage
deriving DecidableEq, Repr

/-- Replication decision of transferKeyValues for one keyword: replicate when
neighbors is empty, or when (newNodeClose and thisNodeClosest), or when
(thisNodeClosest and fewer than ksize neighbors), exactly as at
dht/protocol.py lines 154-159. -/
def transferCondition (ksize : Nat) (sourceNode node : Peer) (keyword : Bytes)
    (neighbors : List Peer) : Bool :=
  match neighbors.head?, neighbors.getLast? with
  | some first, some last =>
    let newNodeClose := decide (distance node.nid keyword < distance last.nid keyword)
    let thisNodeClosest :=
      decide (distance sourceNode.nid keyword < distance first.nid keyword)
    (newNodeClose && thisNodeClosest) || (thisNodeClosest && decide (neighbors.length < ksize))
  | _, _ => true

/-- Replication protocol (transferKeyValues, dht/protocol.py lines 137-162):
for each stored keyword, find the k nearest peers excluding the new node,
decide whether to push, and collect the STORE calls issued to the node. -/
def transferKeyValues (st : ProtoState) (node : Peer) : List StoreCall :=
  (Storage.iterkeys st.storage).flatMap fun keyword =>
    if transferCondition st.ksize st.sourceNode node keyword
        (Router.findNeighbors st.router st.ksize keyword node) then
      (Storage.iteritems st.storage keyword).map fun kv =>
        { target := node, keyword := keyword, key := kv.1, value := kv.2 }
    else []

/-- Contact management on inbound requests (addToRouter, dht/protocol.py
lines 179-188): run the replication protocol when the sender is new, then
add it as a contact.  Returns the new state and the events in order. -/
def addToRouter (st : ProtoState) (node : Peer) : ProtoState × List Event :=
  if Router.isNewNode st.router node then
    ({ st with router := Router.addContact st.router node },
      Event.addEv node :: Event.transferEv node ::
        (transferKeyValues st node).map Event.storeEv)
  else
    ({ st with router := Router.addContact st.router node }, [Event.addEv node])

/-- STUN handler (dht/protocol.py lines 46-48). -/
def rpc_stun (st : ProtoState) (sender : Peer) : ProtoState × List Event × Reply :=
  let a := addToRouter st sender
  (a.1, a.2, [RItem.s sender.ip, RItem.s (toString sender.port)])

/-- PING handler (dht/protocol.py lines 50-52). -/
def rpc_ping (O : Oracles) (st : ProtoState) (sender : Peer) :
    ProtoState × List Event × Reply :=
  let a := addToRouter st sender
  (a.1, a.2, [RItem.b (O.serialize a.1.sourceNode)])

/-- STORE handler (dht/protocol.py lines 54-61). -/
def rpc_store (st : ProtoState) (sender : Peer) (keyword key value : Bytes) :
    ProtoState × List Event × Reply :=
  let a := addToRouter st sender
  if keyword.length = 20 ∧ key.length ≤ 33 ∧ value.length ≤ 1800 then
    ({ a.1 with storage := Storage.setItem a.1.storage keyword key value },
      a.2, [RItem.s "True"])
  else
    (a.1, a.2, [RItem.s "False"])

/-- DELETE handler (dht/protocol.py lines 63-91): self-owned path when the
keyword is the digest of the sender's id, pointer path otherwise; every
exception path of the source becomes a failure reply. -/
def rpc_delete (O : Oracles) (st : ProtoState) (sender : Peer)
    (keyword key signature : Bytes) : ProtoState × List Event × Reply :=
  let a := addToRouter st sender
  match Storage.getSpecific a.1.storage keyword key with
  | none => (a.1, a.2, [RItem.s "False"])
  | some value =>
    if keyword = O.digest sender.nid then
      let pk := sender.signed_pubkey.drop 64
      if O.keyOk pk && O.verifyDetached pk key signature then
        ({ a.1 with storage := Storage.delete a.1.storage keyword key },
          a.2, [RItem.s "True"])
      else (a.1, a.2, [RItem.s "False"])
    else
      match O.parseNode value with
      | none => (a.1, a.2, [RItem.s "False"])
      | some msg =>
        let pubkey := msg.signedPublicKey.drop 64
        if O.keyOk pubkey && O.verifyCombined pubkey (signature ++ key) then
          ({ a.1 with storage := Storage.delete a.1.storage keyword key },
            a.2, [RItem.s "True"])
        else (a.1, a.2, [RItem.s "False"])

/-- FIND_NODE handler (dht/protocol.py lines 93-101). -/
def rpc_find_node (O : Oracles) (st : ProtoState) (sender : Peer) (key : Bytes) :
    ProtoState × List Event × Reply :=
  let a := addToRouter st sender
  let nodeList := Router.findNeighbors a.1.router a.1.ksize key sender
  (a.1, a.2, nodeList.map fun n => RItem.b (O.serialize n))

/-- FIND_VALUE handler (dht/protocol.py lines 103-110): value marker plus
pairs when the keyword is stored, otherwise delegate to rpc_find_node. -/
def rpc_find_value (O : Oracles) (st : ProtoState) (sender : Peer) (keyword : Bytes) :
    ProtoState × List Event × Reply :=
  let a := addToRouter st sender
  match Storage.get a.1.storage keyword with
  | none =>
    let b := rpc_find_node O a.1 sender keyword
    (b.1, a.2 ++ b.2.1, b.2.2)
  | some pairs =>
    (a.1, a.2, RItem.s "value" :: pairs.flatMap fun kv => [RItem.b kv.1, RItem.b kv.2])

/-- Continuation of every outbound call (handleCallResponse, dht/protocol.py
lines 164-177): on success replicate to new nodes and add the contact, on
failure remove it; the result passes through unchanged. -/
def handleCallResponse (st : ProtoState) (result : Bool × Reply) (node : Peer) :
    ProtoState × List Event × (Bool × Reply) :=
  if result.1 then
    if Router.isNewNode st.router node then
      ({ st with router := Router.addContact st.router node },
        Event.transferEv node :: (transferKeyValues st node).map Event.storeEv, result)
    else
      ({ st with router := Router.addContact st.router node }, [], result)
  else
    ({ st with router := Router.removeContact st.router node }, [], result)

/-- Inbound request, dispatched on the message type. -/
inductive Request where
  | ping
  | stun
  | store (keyword key value : Bytes)
  | delete (keyword key signature : Bytes)
  | findNode (key : Bytes)
  | findValue (keyword : Bytes)
deriving DecidableEq, Repr

/-- Dispatch of an inbound request to its handler. -/
def handleRequest (O : Oracles) (st : ProtoState) (sender : Peer) :
    Request → ProtoState × List Event × Reply
  | Request.ping => rpc_ping O st sender
  | Request.stun => rpc_stun st sender
  | Request.store keyword key value => rpc_store st sender keyword key value
  | Request.delete keyword key signature => rpc_delete O st sender keyword key signature
  | Request.findNode key => rpc_find_node O st sender key
  | Request.findValue keyword => rpc_find_value O st sender keyword

/-- Shape of a well-defined reply per command (spec sections 4.1 and 6). -/
def wellFormedReply : Request → Reply → Prop
  | Request.ping, r => r.length = 1
  | Request.stun, r => r.length = 2
  | Request.store _ _ _, r => r = [RItem.s "True"] ∨ r = [RItem.s "False"]
  | Request.delete _ _ _, r => r = [RItem.s "True"] ∨ r = [RItem.s "False"]
  | Request.findNode _, r => ∀ x ∈ r, ∃ v, x = RItem.b v
  | Request.findValue _, r =>
      (∃ rest, r = RItem.s "value" :: rest) ∨ ∀ x ∈ r, ∃ v, x = RItem.b v

/-- Number of transferKeyValues runs recorded for a peer. -/
def countTransfers (evs : List Event) (p : Peer) : Nat :=
  (evs.filter fun e => decide (e = Event.transferEv p)).length

/-- Number of addToRouter invocations recorded for a peer. -/
def countAdds (evs : List Event) (p : Peer) : Nat :=
  (evs.filter fun e => decide (e = Event.addEv p)).length

theorem addToRouter_fst_storage (st : ProtoState) (p : Peer) :
    (addToRouter st p).1.storage = st.storage := by
  unfold addToRouter; split <;> rfl

theorem addToRouter_fst_ksize (st : ProtoState) (p : Peer) :
    (addToRouter st p).1.ksize = st.ksize := by
  unfold addToRouter; split <;> rfl

theorem addToRouter_fst_sourceNode (st : ProtoState) (p : Peer) :
    (addToRouter st p).1.sourceNode = st.sourceNode := by
  unfold addToRouter; split <;> rfl

theorem addToRouter_fst_router (st : ProtoState) (p : Peer) :
    (addToRouter st p).1.router = Router.addContact st.router p := by
  unfold addToRouter; split <;> rfl

theorem hasContact_addContact (r : Router) (p : Peer) :
    Router.hasContact (Router.addContact r p) p = true := by
  unfold Router.addContact
  split
  · assumption
  · unfold Router.hasContact
    simp [List.any_append]

theorem addContact_idem (r : Router) (p : Peer) :
    Router.addContact (Router.addContact r p) p = Router.addContact r p := by
  conv_lhs => rw [Router.addContact]
  rw [hasContact_addContact]
  simp

theorem hasContact_removeContact (r : Router) (p : Peer) :
    Router.hasContact (Router.removeContact r p) p = false := by
  unfold Router.hasContact Router.removeContact
  simp [List.any_eq_true, List.mem_filter]

theorem isNewNode_addContact (r : Router) (p : Peer) :
    Router.isNewNode (Router.addContact r p) p = false := by
  unfold Router.isNewNode
  rw [hasContact_addContact]
  rfl

/-- Example peer used by the concrete witnesses. -/
def exSender : Peer :=
  { nid := [1], ip := "a", port := 1, signed_pubkey := List.replicate 64 0 ++ [7] }

/-- Example oracle: digest maps everything to the byte string [9]; parsing
always yields a descriptor whose embedded key byte is 5; every verification
succeeds. -/
def exO : Oracles where
  digest := fun _ => [9]
  serialize := fun _ => [1, 2]
  parseNode := fun _ => some { signedPublicKey := List.replicate 64 0 ++ [5] }
  keyOk := fun _ => true
  verifyDetached := fun _ _ _ => true
  verifyCombined := fun _ _ => true

/-- Example state with an empty routing table and one record under a keyword
that is not the digest of the example sender. -/
def exSt : ProtoState :=
  { ksize := 2, sourceNode := exSender, router := [], storage := [([3], [4], [5])] }

/-- Example state with one record under the digest of the example sender. -/
def exStSelf : ProtoState :=
  { ksize := 2, sourceNode := exSender, router := [], storage := [([9], [4], [5])] }

/-- Example state with nothing stored. -/
def exEmpty : ProtoState :=
  { ksize := 2, sourceNode := exSender, router := [], storage := [] }

/-- C4: a STORE request is accepted, upserting (key, value) under the
keyword and replying True, exactly when the keyword is 20 bytes, the key at
most 33 bytes and the value at most 1800 bytes; otherwise the reply is False
and storage is unchanged. -/
theorem store_admission (st : ProtoState) (sender : Peer) (keyword key value : Bytes) :
    if keyword.length = 20 ∧ key.length ≤ 33 ∧ value.length ≤ 1800 then
      (rpc_store st sender keyword key value).2.2 = [RItem.s "True"] ∧
      (rpc_store st sender keyword key value).1.storage =
        Storage.setItem st.storage keyword key value
    else
      (rpc_store st sender keyword key value).2.2 = [RItem.s "False"] ∧
      (rpc_store st sender keyword key value).1.storage = st.storage := by
  split
  · next h => simp [rpc_store, h, addToRouter_fst_storage]
  · next h => simp [rpc_store, h, addToRouter_fst_storage]

/-- C3: every DELETE request is answered with True or False; on a False
reply storage is unchanged, and on a True reply the (keyword, key) record
existed and the signature verification of the matching authorization path
succeeded, the record being removed. -/
theorem delete_error_handling (O : Oracles) (st : ProtoState) (sender : Peer)
    (keyword key signature : Bytes) :
    ((rpc_delete O st sender keyword key signature).2.2 = [RItem.s "True"] ∨
      (rpc_delete O st sender keyword key signature).2.2 = [RItem.s "False"]) ∧
    ((rpc_delete O st sender keyword key signature).2.2 = [RItem.s "False"] →
      (rpc_delete O st sender keyword key signature).1.storage = st.storage) ∧
    ((rpc_delete O st sender keyword key signature).2.2 = [RItem.s "True"] →
      (rpc_delete O st sender keyword key signature).1.storage =
        Storage.delete st.storage keyword key ∧
      ∃ v, Storage.getSpecific st.storage keyword key = some v ∧
        ((keyword = O.digest sender.nid ∧
          O.keyOk (sender.signed_pubkey.drop 64) = true ∧
          O.verifyDetached (sender.signed_pubkey.drop 64) key signature = true) ∨
         (keyword ≠ O.digest sender.nid ∧
          ∃ msg, O.parseNode v = some msg ∧
            O.keyOk (msg.signedPublicKey.drop 64) = true ∧
            O.verifyCombined (msg.signedPublicKey.drop 64) (signature ++ key) = true))) := by
  rcases hg : Storage.getSpecific st.storage keyword key with _ | v
  · simp [rpc_delete, addToRouter_fst_storage, hg]
  · by_cases hd : keyword = O.digest sender.nid
    · subst hd
      cases hv : O.keyOk (sender.signed_pubkey.drop 64) &&
        O.verifyDetached (sender.signed_pubkey.drop 64) key signature with
      | false => simp [rpc_delete, addToRouter_fst_storage, hg, hv]
      | true =>
        rcases Bool.and_eq_true .. |>.mp hv with ⟨h1, h2⟩
        simp [rpc_delete, addToRouter_fst_storage, hg, hv]
        exact ⟨h1, h2⟩
    · rcases hp : O.parseNode v with _ | msg
      · simp [rpc_delete, addToRouter_fst_storage, hg, hd, hp]
      · cases hv : O.keyOk (msg.signedPublicKey.drop 64) &&
          O.verifyCombined (msg.signedPublicKey.drop 64) (signature ++ key) with
        | false => simp [rpc_delete, addToRouter_fst_storage, hg, hd, hp, hv]
        | true =>
          rcases Bool.and_eq_true .. |>.mp hv with ⟨h1, h2⟩
          simp [rpc_delete, addToRouter_fst_storage, hg, hd, hp, hv]
          exact ⟨h1, h2⟩

/-- C1: a DELETE for an existing record whose keyword is not the digest of
the sender's id succeeds exactly when the stored value parses as a peer
descriptor and the signature concatenated with the key verifies under the
verification key embedded after offset 64 of that descriptor's signed
public key; under any other key the reply is a failure. -/
theorem delete_pointer_auth (O : Oracles) (st : ProtoState) (sender : Peer)
    (keyword key signature v : Bytes)
    (hkw : keyword ≠ O.digest sender.nid)
    (hrec : Storage.getSpecific st.storage keyword key = some v) :
    (rpc_delete O st sender keyword key signature).2.2 = [RItem.s "True"] ↔
      ∃ msg, O.parseNode v = some msg ∧
        O.keyOk (msg.signedPublicKey.drop 64) = true ∧
        O.verifyCombined (msg.signedPublicKey.drop 64) (signature ++ key) = true := by
  rcases hp : O.parseNode v with _ | msg
  · simp [rpc_delete, addToRouter_fst_storage, hrec, hkw, hp]
  · cases hv : O.keyOk (msg.signedPublicKey.drop 64) &&
      O.verifyCombined (msg.signedPublicKey.drop 64) (signature ++ key) with
    | false =>
      simp [rpc_delete, addToRouter_fst_storage, hrec, hkw, hp, hv]
      intro h1
      simpa [h1] using hv
    | true =>
      rcases Bool.and_eq_true .. |>.mp hv with ⟨h1, h2⟩
      simp [rpc_delete, addToRouter_fst_storage, hrec, hkw, hp, hv, h1, h2]

/-- Witness for C1 at a concrete pointer record. -/
theorem delete_pointer_auth_witness :
    (rpc_delete exO exSt exSender [3] [4] [6]).2.2 = [RItem.s "True"] ↔
      ∃ msg, exO.parseNode [5] = some msg ∧
        exO.keyOk (msg.signedPublicKey.drop 64) = true ∧
        exO.verifyCombined (msg.signedPublicKey.drop 64) ([6] ++ [4]) = true :=
  delete_pointer_auth exO exSt exSender [3] [4] [6] [5] (by decide) (by decide)

/-- Counterexample for C2: with nothing stored, a self-owned DELETE fails
even though the signature is valid under the sender's embedded key, so
success is not equivalent to signature validity alone. -/
theorem delete_self_missing_record :
    exEmpty.storage = [] ∧
    [9] = exO.digest exSender.nid ∧
    exO.keyOk (exSender.signed_pubkey.drop 64) = true ∧
    exO.verifyDetached (exSender.signed_pubkey.drop 64) [4] [6] = true ∧
    (rpc_delete exO exEmpty exSender [9] [4] [6]).2.2 = [RItem.s "False"] := by
  decide

/-- C2 (amended): a DELETE with keyword equal to the digest of the sender's
id, for which a record exists at (keyword, key), succeeds exactly when the
signature is valid over the message key under the verification key at bytes
after offset 64 of the sender's signed-public-key blob; a forged signature
yields a failure reply. -/
theorem delete_self_auth (O : Oracles) (st : ProtoState) (sender : Peer)
    (keyword key signature v : Bytes)
    (hkw : keyword = O.digest sender.nid)
    (hrec : Storage.getSpecific st.storage keyword key = some v) :
    (rpc_delete O st sender keyword key signature).2.2 = [RItem.s "True"] ↔
      O.keyOk (sender.signed_pubkey.drop 64) = true ∧
      O.verifyDetached (sender.signed_pubkey.drop 64) key signature = true := by
  subst hkw
  cases hv : O.keyOk (sender.signed_pubkey.drop 64) &&
    O.verifyDetached (sender.signed_pubkey.drop 64) key signature with
  | false =>
    simp [rpc_delete, addToRouter_fst_storage, hrec, hv]
    intro h1
    simpa [h1] using hv
  | true =>
    rcases Bool.and_eq_true .. |>.mp hv with ⟨h1, h2⟩
    simp [rpc_delete, addToRouter_fst_storage, hrec, hv, h1, h2]

/-- Witness for the amended C2 at a concrete self-owned record. -/
theorem delete_self_auth_witness :
    (rpc_delete exO exStSelf exSender [9] [4] [6]).2.2 = [RItem.s "True"] ↔
      exO.keyOk (exSender.signed_pubkey.drop 64) = true ∧
      exO.verifyDetached (exSender.signed_pubkey.drop 64) [4] [6] = true :=
  delete_self_auth exO exStSelf exSender [9] [4] [6] [5] (by decide) (by decide)

/-- C7: the outbound-call continuation returns the result unchanged; on a
failure result the peer is absent from the routing table afterward, on a
success result it is present, with the replication run recorded first when
the routing table reported the peer as new. -/
theorem call_response_contact (st : ProtoState) (result : Bool × Reply) (node : Peer) :
    (handleCallResponse st result node).2.2 = result ∧
    (result.1 = false →
      Router.hasContact (handleCallResponse st result node).1.router node = false) ∧
    (result.1 = true →
      Router.hasContact (handleCallResponse st result node).1.router node = true) ∧
    (result.1 = true → Router.isNewNode st.router node = true →
      (handleCallResponse st result node).2.1.head? = some (Event.transferEv node)) := by
  cases hr : result.1 with
  | false => simp [handleCallResponse, hr, hasContact_removeContact]
  | true =>
    cases hn : Router.isNewNode st.router node with
    | true => simp [handleCallResponse, hr, hn, hasContact_addContact]
    | false => simp [handleCallResponse, hr, hn, hasContact_addContact]

theorem storeEvs_no_transfer (calls : List StoreCall) (p : Peer) :
    (calls.map Event.storeEv).filter (fun e => decide (e = Event.transferEv p)) = [] := by
  simp

theorem storeEvs_no_add (calls : List StoreCall) (p : Peer) :
    (calls.map Event.storeEv).filter (fun e => decide (e = Event.addEv p)) = [] := by
  simp

theorem countAdds_append (a b : List Event) (p : Peer) :
    countAdds (a ++ b) p = countAdds a p + countAdds b p := by
  unfold countAdds
  rw [List.filter_append, List.length_append]

theorem countAdds_addToRouter (st : ProtoState) (p : Peer) :
    countAdds (addToRouter st p).2 p = 1 := by
  unfold countAdds addToRouter
  split
  · simp [List.filter_cons, storeEvs_no_add]
  · simp

theorem addToRouter_snd_new (st : ProtoState) (p : Peer)
    (h : Router.isNewNode st.router p = true) :
    (addToRouter st p).2 = Event.addEv p :: Event.transferEv p ::
      (transferKeyValues st p).map Event.storeEv := by
  simp [addToRouter, h]

theorem addToRouter_snd_old (st : ProtoState) (p : Peer)
    (h : Router.isNewNode st.router p = false) :
    (addToRouter st p).2 = [Event.addEv p] := by
  simp [addToRouter, h]

/-- C8: two consecutive addToRouter calls with the same never-before-seen
peer run the replication protocol exactly once for that peer: the second
call no longer finds it new and only refreshes the contact. -/
theorem add_to_router_idem (st : ProtoState) (p : Peer)
    (h : Router.isNewNode st.router p = true) :
    countTransfers ((addToRouter st p).2 ++ (addToRouter (addToRouter st p).1 p).2) p = 1 := by
  have h2 : Router.isNewNode (addToRouter st p).1.router p = false := by
    rw [addToRouter_fst_router]
    exact isNewNode_addContact st.router p
  have e1 : ((addToRouter st p).2.filter fun e => decide (e = Event.transferEv p)).length = 1 := by
    rw [addToRouter_snd_new st p h]
    simp [List.filter_cons, storeEvs_no_transfer]
  have e2 : ((addToRouter (addToRouter st p).1 p).2.filter
      fun e => decide (e = Event.transferEv p)).length = 0 := by
    rw [addToRouter_snd_old (addToRouter st p).1 p h2]
    simp [List.filter_cons]
  unfold countTransfers
  rw [List.filter_append, List.length_append, e1, e2]

/-- Witness for C8 with a concrete previously unseen peer. -/
theorem add_to_router_idem_witness :
    countTransfers ((addToRouter exSt exSender).2 ++
      (addToRouter (addToRouter exSt exSender).1 exSender).2) exSender = 1 :=
  add_to_router_idem exSt exSender (by decide)

theorem rpc_find_value_none (O : Oracles) (st : ProtoState) (sender : Peer) (keyword : Bytes)
    (h : Storage.get st.storage keyword = none) :
    rpc_find_value O st sender keyword =
      ((addToRouter (addToRouter st sender).1 sender).1,
       (addToRouter st sender).2 ++ (addToRouter (addToRouter st sender).1 sender).2,
       (Router.findNeighbors (addToRouter (addToRouter st sender).1 sender).1.router
          (addToRouter (addToRouter st sender).1 sender).1.ksize keyword sender).map
         fun n => RItem.b (O.serialize n)) := by
  have hs : Storage.get (addToRouter st sender).1.storage keyword = none := by
    rw [addToRouter_fst_storage]; exact h
  simp only [rpc_find_value, rpc_find_node, hs]

/-- C10: a FIND_VALUE request whose keyword has no stored records invokes
addToRouter on the sender twice, once in the FIND_VALUE handler and once in
the FIND_NODE handler it delegates to, so its routing-table effect equals
applying addToRouter to the sender twice before the reply is produced. -/
theorem find_value_double_add (O : Oracles) (st : ProtoState) (sender : Peer)
    (keyword : Bytes) (h : Storage.get st.storage keyword = none) :
    countAdds (rpc_find_value O st sender keyword).2.1 sender = 2 ∧
    (rpc_find_value O st sender keyword).1 =
      (addToRouter (addToRouter st sender).1 sender).1 := by
  rw [rpc_find_value_none O st sender keyword h]
  refine ⟨?_, rfl⟩
  rw [countAdds_append, countAdds_addToRouter, countAdds_addToRouter]

/-- Witness for C10 with a concrete keyword that has no stored records. -/
theorem find_value_double_add_witness :
    countAdds (rpc_find_value exO exEmpty exSender [7]).2.1 exSender = 2 ∧
    (rpc_find_value exO exEmpty exSender [7]).1 =
      (addToRouter (addToRouter exEmpty exSender).1 exSender).1 :=
  find_value_double_add exO exEmpty exSender [7] (by decide)

/-- C6: a FIND_VALUE for a keyword with no stored records replies exactly
as a FIND_NODE from the same sender for that keyword, and with stored
records it replies with the value marker followed by the stored
(key, value) pairs. -/
theorem find_value_fallback (O : Oracles) (st : ProtoState) (sender : Peer) (keyword : Bytes) :
    (Storage.get st.storage keyword = none →
      (rpc_find_value O st sender keyword).2.2 = (rpc_find_node O st sender keyword).2.2) ∧
    (∀ pairs, Storage.get st.storage keyword = some pairs →
      (rpc_find_value O st sender keyword).2.2 =
        RItem.s "value" :: pairs.flatMap fun kv => [RItem.b kv.1, RItem.b kv.2]) := by
  constructor
  · intro h
    rw [rpc_find_value_none O st sender keyword h]
    simp only [rpc_find_node, addToRouter_fst_router, addToRouter_fst_ksize, addContact_idem]
  · intro pairs h
    have hs : Storage.get (addToRouter st sender).1.storage keyword = some pairs := by
      rw [addToRouter_fst_storage]; exact h
    simp only [rpc_find_value, hs]

/-- C9: every inbound request yields a well-defined reply of the documented
shape for its command, whatever the collaborators return; in particular
STORE and DELETE always reply True or False, every fault degrading to a
reject reply. -/
theorem handlers_reply_defined (O : Oracles) (st : ProtoState) (sender : Peer)
    (req : Request) : wellFormedReply req (handleRequest O st sender req).2.2 := by
  cases req with
  | ping => simp [handleRequest, rpc_ping, wellFormedReply]
  | stun => simp [handleRequest, rpc_stun, wellFormedReply]
  | store keyword key value =>
    simp only [handleRequest, wellFormedReply, rpc_store]
    split <;> simp
  | delete keyword key signature =>
    rcases hg : Storage.getSpecific st.storage keyword key with _ | v
    · simp [handleRequest, wellFormedReply, rpc_delete, addToRouter_fst_storage, hg]
    · by_cases hd : keyword = O.digest sender.nid
      · subst hd
        cases hv : O.keyOk (sender.signed_pubkey.drop 64) &&
          O.verifyDetached (sender.signed_pubkey.drop 64) key signature with
        | false =>
          simp [handleRequest, wellFormedReply, rpc_delete, addToRouter_fst_storage, hg, hv]
        | true =>
          simp [handleRequest, wellFormedReply, rpc_delete, addToRouter_fst_storage, hg, hv]
      · rcases hp : O.parseNode v with _ | msg
        · simp [handleRequest, wellFormedReply, rpc_delete, addToRouter_fst_storage, hg, hd, hp]
        · cases hv : O.keyOk (msg.signedPublicKey.drop 64) &&
            O.verifyCombined (msg.signedPublicKey.drop 64) (signature ++ key) with
          | false =>
            simp [handleRequest, wellFormedReply, rpc_delete, addToRouter_fst_storage,
              hg, hd, hp, hv]
          | true =>
            simp [handleRequest, wellFormedReply, rpc_delete, addToRouter_fst_storage,
              hg, hd, hp, hv]
  | findNode key =>
    simp only [handleRequest, wellFormedReply, rpc_find_node]
    intro x hx
    rcases List.mem_map.mp hx with ⟨n, _, rfl⟩
    exact ⟨O.serialize n, rfl⟩
  | findValue keyword =>
    rcases h : Storage.get st.storage keyword with _ | pairs
    · have hs : Storage.get (addToRouter st sender).1.storage keyword = none := by
        rw [addToRouter_fst_storage]; exact h
      simp only [handleRequest, wellFormedReply, rpc_find_value, rpc_find_node, hs]
      right
      intro x hx
      rcases List.mem_map.mp hx with ⟨n, _, rfl⟩
      exact ⟨O.serialize n, rfl⟩
    · have hs : Storage.get (addToRouter st sender).1.storage keyword = some pairs := by
        rw [addToRouter_fst_storage]; exact h
      simp only [handleRequest, wellFormedReply, rpc_find_value, hs]
      exact Or.inl ⟨_, rfl⟩

/-- The neighbor list produced by findNeighbors is ordered by ascending XOR
distance to the target. -/
theorem findNeighbors_sorted (r : Router) (ksize : Nat) (target : Bytes) (exclude : Peer) :
    (Router.findNeighbors r ksize target exclude).Pairwise
      (fun a b => distance a.nid target ≤ distance b.nid target) := by
  haveI : IsTotal Peer (fun a b => distance a.nid target ≤ distance b.nid target) :=
    ⟨fun a b => Nat.le_total _ _⟩
  haveI : IsTrans Peer (fun a b => distance a.nid target ≤ distance b.nid target) :=
    ⟨fun a b c hab hbc => Nat.le_trans hab hbc⟩
  exact (List.sorted_insertionSort _ _).sublist (List.take_sublist _ _)

/-- The replication decision over a distance-sorted neighbor list, spelt as
the three replicate branches of spec section 4.4. -/
theorem transferCondition_iff (ksize : Nat) (sourceNode node : Peer) (keyword : Bytes)
    (neighbors : List Peer)
    (hs : neighbors.Pairwise (fun a b => distance a.nid keyword ≤ distance b.nid keyword)) :
    transferCondition ksize sourceNode node keyword neighbors = true ↔
      (neighbors = [] ∨
       (∃ first last, neighbors.head? = some first ∧ neighbors.getLast? = some last ∧
          distance node.nid keyword < distance last.nid keyword ∧
          distance sourceNode.nid keyword < distance first.nid keyword) ∨
       ((∀ q ∈ neighbors, distance sourceNode.nid keyword < distance q.nid keyword) ∧
        neighbors.length < ksize)) := by
  cases neighbors with
  | nil => simp [transferCondition]
  | cons first rest =>
    have hfirst : ∀ q ∈ first :: rest,
        distance first.nid keyword ≤ distance q.nid keyword := by
      intro q hq
      rcases List.mem_cons.mp hq with rfl | hq
      · exact Nat.le_refl _
      · exact List.rel_of_pairwise_cons hs hq
    have hkey : (distance sourceNode.nid keyword < distance first.nid keyword) ↔
        ∀ q ∈ first :: rest, distance sourceNode.nid keyword < distance q.nid keyword := by
      constructor
      · intro h q hq
        exact Nat.lt_of_lt_of_le h (hfirst q hq)
      · intro h
        exact h first (List.mem_cons_self first rest)
    rcases hgl : (first :: rest).getLast? with _ | lastEl
    · simp at hgl
    · simp only [transferCondition, hgl, List.head?_cons]
      simp only [Bool.or_eq_true, Bool.and_eq_true, decide_eq_true_eq]
      constructor
      · rintro (⟨hA, hC⟩ | ⟨hC, hD⟩)
        · exact Or.inr (Or.inl ⟨first, lastEl, rfl, rfl, hA, hC⟩)
        · exact Or.inr (Or.inr ⟨hkey.mp hC, hD⟩)
      · rintro (hnil | ⟨f1, l1, hf1, hl1, hA, hC⟩ | ⟨hall, hD⟩)
        · exact absurd hnil (List.cons_ne_nil first rest)
        · obtain rfl : first = f1 := Option.some.inj hf1
          obtain rfl : lastEl = l1 := Option.some.inj hl1
          exact Or.inl ⟨hA, hC⟩
        · exact Or.inr ⟨hkey.mpr hall, hD⟩


/-- A keyword listed by iterkeys has at least one stored pair. -/
theorem iteritems_ne_nil (s : Storage) (kw : Bytes) (h : kw ∈ Storage.iterkeys s) :
    Storage.iteritems s kw ≠ [] := by
  rcases List.mem_map.mp (List.mem_dedup.mp h) with ⟨r, hr, rfl⟩
  intro hnil
  have hmem : r ∈ s.filter fun q => decide (q.1 = r.1) := List.mem_filter.mpr ⟨hr, by simp⟩
  rw [Storage.iteritems, List.map_eq_nil_iff] at hnil
  rw [hnil] at hmem
  exact List.not_mem_nil r hmem

/-- A STORE call for a stored keyword is issued by transferKeyValues exactly
when the replication condition holds for that keyword. -/
theorem transferKeyValues_keyword (st : ProtoState) (P : Peer) (kw : Bytes)
    (hkw : kw ∈ Storage.iterkeys st.storage) :
    ((transferKeyValues st P).any fun c => decide (c.keyword = kw)) = true ↔
      transferCondition st.ksize st.sourceNode P kw
        (Router.findNeighbors st.router st.ksize kw P) = true := by
  constructor
  · intro h
    rcases List.any_eq_true.mp h with ⟨c, hc, hck⟩
    have hck2 : c.keyword = kw := of_decide_eq_true hck
    rcases List.mem_flatMap.mp hc with ⟨kw2, hkw2, hcmem⟩
    by_cases hcond : transferCondition st.ksize st.sourceNode P kw2
        (Router.findNeighbors st.router st.ksize kw2 P) = true
    · simp only [transferKeyValues, hcond, if_true] at hcmem
      rcases List.mem_map.mp hcmem with ⟨kv, hkv, rfl⟩
      simp only at hck2
      rw [← hck2]
      exact hcond
    · simp only [transferKeyValues, Bool.not_eq_true] at hcond
      simp only [hcond, if_false, Bool.false_eq_true] at hcmem
      exact absurd hcmem (List.not_mem_nil c)
  · intro hcond
    apply List.any_eq_true.mpr
    obtain ⟨kv, hkv⟩ := List.exists_mem_of_ne_nil _ (iteritems_ne_nil st.storage kw hkw)
    refine ⟨{ target := P, keyword := kw, key := kv.1, value := kv.2 }, ?_, by simp⟩
    apply List.mem_flatMap.mpr
    refine ⟨kw, hkw, ?_⟩
    simp only [hcond, if_true]
    exact List.mem_map.mpr ⟨kv, hkv, rfl⟩

/-- C5: during replication to a newly discovered peer, a stored keyword's
(key, value) pairs are pushed exactly when the neighbor list for the keyword
(the k nearest known peers excluding that peer) is empty, or the peer is
closer to the keyword than the farthest neighbor while this node is closer
than the nearest neighbor, or this node is closer to the keyword than every
neighbor and there are fewer than k neighbors. -/
theorem transfer_selection (st : ProtoState) (P : Peer) (kw : Bytes)
    (hkw : kw ∈ Storage.iterkeys st.storage) :
    ((transferKeyValues st P).any fun c => decide (c.keyword = kw)) = true ↔
      (Router.findNeighbors st.router st.ksize kw P = [] ∨
       (∃ first last,
          (Router.findNeighbors st.router st.ksize kw P).head? = some first ∧
          (Router.findNeighbors st.router st.ksize kw P).getLast? = some last ∧
          distance P.nid kw < distance last.nid kw ∧
          distance st.sourceNode.nid kw < distance first.nid kw) ∨
       ((∀ q ∈ Router.findNeighbors st.router st.ksize kw P,
           distance st.sourceNode.nid kw < distance q.nid kw) ∧
        (Router.findNeighbors st.router st.ksize kw P).length < st.ksize)) := by
  rw [transferKeyValues_keyword st P kw hkw]
  exact transferCondition_iff st.ksize st.sourceNode P kw _ (findNeighbors_sorted _ _ _ _)

/-- Witness for C5 at a concrete single-record storage. -/
theorem transfer_selection_witness :
    ((transferKeyValues exSt exSender).any fun c => decide (c.keyword = [3])) = true ↔
      (Router.findNeighbors exSt.router exSt.ksize [3] exSender = [] ∨
       (∃ first last,
          (Router.findNeighbors exSt.router exSt.ksize [3] exSender).head? = some first ∧
          (Router.findNeighbors exSt.router exSt.ksize [3] exSender).getLast? = some last ∧
          distance exSender.nid [3] < distance last.nid [3] ∧
          distance exSt.sourceNode.nid [3] < distance first.nid [3]) ∨
       ((∀ q ∈ Router.findNeighbors exSt.router exSt.ksize [3] exSender,
           distance exSt.sourceNode.nid [3] < distance q.nid [3]) ∧
        (Router.findNeighbors exSt.router exSt.ksize [3] exSender).length < exSt.ksize)) :=
  transfer_selection exSt exSender [3] (by decide)
